import Mathlib

/-!
# Verification of the KikundiBackend group-finance API (src/main.py)

Shallow embedding of the SQL-backed CRUD handlers in `src/main.py`.
Rows are Lean structures, the database is lists of rows, and each HTTP
handler becomes a function `DB → args → Except ApiError (DB × result)`.
`HTTPException` outcomes are mapped to the spec's error taxonomy:
  * 404 "… not found"                         ↦ `NotFound`
  * 403 "You are not a member …" / permission ↦ `Forbidden`
  * 400 uniqueness ("already exists/registered/member/voted") ↦ `Conflict`
  * 400 "Cannot remove the group creator"     ↦ `InvalidOperation`
  * 422 pydantic request-body rejection       ↦ `ValidationError`
Monetary amounts are modelled as exact rationals (`ℚ`); Python's
`round(v, 2)` is modelled as round-half-to-even at two decimal places.
Timestamps and other fields irrelevant to the claims are omitted.
-/

deriving instance DecidableEq for Except

namespace Kikundi

/-- Error taxonomy of the spec (§7), the codomain of every handler. -/
inductive ApiError where
  | Unauthenticated
  | Forbidden
  | NotFound
  | Conflict
  | ValidationError
  | InvalidOperation
  | Internal
deriving DecidableEq, Repr

/-- Row of table `users` (src/main.py:31-37); `created_at` omitted. -/
structure User where
  id : Nat
  firebase_uid : String
  full_name : String
  phone : String
deriving DecidableEq, Repr

/-- Row of table `groups` (src/main.py:40-46); `created_at` omitted. -/
structure Group where
  id : Nat
  name : String
  description : String
  created_by : Nat
deriving DecidableEq, Repr

/-- Row of table `group_members` (src/main.py:49-58); surrogate id and
`joined_at` omitted. -/
structure GroupMember where
  group_id : Nat
  user_id : Nat
deriving DecidableEq, Repr

/-- Row of table `contributions` (src/main.py:70-76); `contribution_date`
omitted. -/
structure Contribution where
  id : Nat
  group_id : Nat
  user_id : Nat
  amount : ℚ
deriving DecidableEq, Repr

/-- Row of table `polls` (src/main.py:79-85). -/
structure Poll where
  id : Nat
  group_id : Nat
  question : String
  created_by : Nat
deriving DecidableEq, Repr

/-- Row of table `poll_votes` (src/main.py:88-98); `voted_at` omitted. -/
structure PollVote where
  poll_id : Nat
  user_id : Nat
  vote : Bool
deriving DecidableEq, Repr

/-- The whole relational store: one list of rows per table. -/
structure DB where
  users : List User
  groups : List Group
  members : List GroupMember
  contributions : List Contribution
  polls : List Poll
  votes : List PollVote
deriving DecidableEq, Repr

/-- `db.query(Group).filter(Group.id == group_id).first()`. -/
def findGroup (db : DB) (gid : Nat) : Option Group :=
  db.groups.find? (fun g => g.id == gid)

/-- `db.query(User).filter(User.id == uid).first()`. -/
def findUserById (db : DB) (uid : Nat) : Option User :=
  db.users.find? (fun u => u.id == uid)

/-- `verify_group_membership` (src/main.py:231-237): true iff a
GroupMember row with this (group_id, user_id) pair exists. -/
def verify_group_membership (gid uid : Nat) (db : DB) : Bool :=
  (db.members.find? (fun m => m.group_id == gid && m.user_id == uid)).isSome

/-- `register_user` (src/main.py:242-286).  Pre-checks the firebase uid
(400 "User already registered" ↦ Conflict); a duplicate phone has no
pre-check and surfaces as the storage layer's `IntegrityError`, which the
handler catches, rolls back and maps to 400 "Phone number already
registered" ↦ Conflict.  `newId` stands for the auto-assigned primary key. -/
def register_user (db : DB) (uid name phone : String) (newId : Nat) :
    Except ApiError (DB × User) :=
  if (db.users.find? (fun u => u.firebase_uid == uid)).isSome then
    .error .Conflict
  else if (db.users.find? (fun u => u.phone == phone)).isSome then
    .error .Conflict
  else
    let u : User := ⟨newId, uid, name, phone⟩
    .ok ({ db with users := db.users ++ [u] }, u)

/-- `create_group` (src/main.py:297-343).  Pre-checks the group name
(400 "Group name already exists" ↦ Conflict), inserts the Group, then
inserts the creator's GroupMember row (two separate commits in the
source; the sequential embedding performs both).  `newId` stands for the
auto-assigned group id. -/
def create_group (db : DB) (name description : String) (callerId : Nat)
    (newId : Nat) : Except ApiError (DB × Group) :=
  if (db.groups.find? (fun g => g.name == name)).isSome then
    .error .Conflict
  else
    let g : Group := ⟨newId, name, description, callerId⟩
    let m : GroupMember := ⟨newId, callerId⟩
    .ok ({ db with groups := db.groups ++ [g], members := db.members ++ [m] }, g)

/-- `remove_member` (src/main.py:650-706), in the source's exact check
order: 404 group absent; 403 unless requester is group creator or
requester == target; 400 "Cannot remove the group creator" ↦
InvalidOperation; 404 "Member not found in this group"; then delete the
found GroupMember row. -/
def remove_member (db : DB) (gid userId callerId : Nat) :
    Except ApiError DB :=
  match findGroup db gid with
  | none => .error .NotFound
  | some group =>
    if group.created_by ≠ callerId ∧ callerId ≠ userId then
      .error .Forbidden
    else if userId == group.created_by then
      .error .InvalidOperation
    else
      match db.members.find? (fun m => m.group_id == gid && m.user_id == userId) with
      | none => .error .NotFound
      | some _ =>
        .ok { db with
          members := db.members.eraseP
            (fun m => m.group_id == gid && m.user_id == userId) }

/-- `add_group_member` (src/main.py:532-602), in the source's exact
check order: 404 group absent; 403 requester not a member; 404 user to
add absent; 400 "User is already a member" ↦ Conflict; then insert. -/
def add_group_member (db : DB) (gid : Nat) (targetUserId : Nat)
    (callerId : Nat) : Except ApiError (DB × GroupMember) :=
  match findGroup db gid with
  | none => .error .NotFound
  | some _ =>
    if ¬ verify_group_membership gid callerId db then
      .error .Forbidden
    else
      match findUserById db targetUserId with
      | none => .error .NotFound
      | some _ =>
        if (db.members.find?
            (fun m => m.group_id == gid && m.user_id == targetUserId)).isSome then
          .error .Conflict
        else
          let m : GroupMember := ⟨gid, targetUserId⟩
          .ok ({ db with members := db.members ++ [m] }, m)

/-- Round-half-to-even to the nearest integer, on exact rationals: the
model of Python's built-in `round` at integer granularity.  `f` is
`⌊q⌋` and `t/(2*den)` is the fractional part, so the three branches are
fraction < 1/2, fraction > 1/2, and the exact tie broken to even. -/
def roundHalfEven (q : ℚ) : ℤ :=
  let f : ℤ := q.num.fdiv q.den
  let t : ℤ := 2 * (q.num - f * (q.den : ℤ))
  if t < (q.den : ℤ) then f
  else if (q.den : ℤ) < t then f + 1
  else if f % 2 = 0 then f else f + 1

/-- Python's `round(v, 2)` modelled on exact rationals: round half to
even at two decimal places, `roundHalfEven (q * 100) / 100` (the scaling
by 100 is written with `mkRat` on the numerator, which equals `q * 100`:
see `round2_eq`). -/
def round2 (q : ℚ) : ℚ :=
  mkRat (roundHalfEven (mkRat (q.num * 100) q.den)) 100

/-- The pydantic model `ContributionCreate` (src/main.py:147-154): the
request body is rejected (422 ↦ ValidationError) when `amount ≤ 0`
(both `Field(..., gt=0)` and the `validate_amount` validator), and
otherwise the bound value is `round(v, 2)`.  FastAPI runs this at
request binding, before the handler body executes. -/
def contributionCreate (amount : ℚ) : Except ApiError ℚ :=
  if amount ≤ 0 then .error .ValidationError
  else .ok (round2 amount)

/-- `record_contribution` (src/main.py:711-764) together with its
request binding: pydantic validation of the body runs first; then 404
group absent; then 403 requester not a member; then a Contribution row
attributed to the authenticated caller is inserted.  `newId` stands for
the auto-assigned primary key. -/
def record_contribution (db : DB) (gid : Nat) (rawAmount : ℚ)
    (callerId : Nat) (newId : Nat) : Except ApiError (DB × Contribution) :=
  match contributionCreate rawAmount with
  | .error e => .error e
  | .ok amount =>
    match findGroup db gid with
    | none => .error .NotFound
    | some _ =>
      if ¬ verify_group_membership gid callerId db then
        .error .Forbidden
      else
        let c : Contribution := ⟨newId, gid, callerId, amount⟩
        .ok ({ db with contributions := db.contributions ++ [c] }, c)

/-- Modelled from the spec: the VotePoll endpoint (`POST
/polls/{id}/votes`) is missing from src/main.py (the file ends before
the poll endpoints; only the `PollVote` table, src/main.py:88-98, is
present).  Per spec §4.3: fails NotFound if the poll is absent; fails
Conflict if the voter already voted on this poll; no membership check;
creates a PollVote. -/
def vote_poll (db : DB) (pollId : Nat) (choice : Bool) (callerId : Nat) :
    Except ApiError (DB × PollVote) :=
  match db.polls.find? (fun p => p.id == pollId) with
  | none => .error .NotFound
  | some _ =>
    if (db.votes.find?
        (fun v => v.poll_id == pollId && v.user_id == callerId)).isSome then
      .error .Conflict
    else
      let v : PollVote := ⟨pollId, callerId, choice⟩
      .ok ({ db with votes := db.votes ++ [v] }, v)

/-- Result shape of GetPollResults: total/yes/no counts and the two
percentages. -/
structure PollResults where
  total : Nat
  yes : Nat
  no : Nat
  yes_percentage : ℚ
  no_percentage : ℚ
deriving DecidableEq, Repr

/-- Modelled from the spec: the GetPollResults endpoint (`GET
/polls/{id}/results`) is missing from src/main.py (the file ends before
the poll endpoints).  Per spec §4.3: fails NotFound if the poll is
absent; returns total/yes/no counts and yes%/no%, with 0% when the
total is 0 (division by zero guarded, not an error). -/
def get_poll_results (db : DB) (pollId : Nat) : Except ApiError PollResults :=
  match db.polls.find? (fun p => p.id == pollId) with
  | none => .error .NotFound
  | some _ =>
    let vs := db.votes.filter (fun v => v.poll_id == pollId)
    let total := vs.length
    let yes := (vs.filter (fun v => v.vote)).length
    let no := total - yes
    let yesPct : ℚ := if total = 0 then 0 else (yes : ℚ) * 100 / (total : ℚ)
    let noPct : ℚ := if total = 0 then 0 else (no : ℚ) * 100 / (total : ℚ)
    .ok ⟨total, yes, no, yesPct, noPct⟩

/-- One step of the `contributions_map` loop in `get_groups`
(src/main.py:380-385) and `get_group_details` (src/main.py:464-468): if
the display name is not yet a key it is inserted with 0.0, then the
amount is added under that key. -/
def addToMap (m : List (String × ℚ)) (k : String) (a : ℚ) :
    List (String × ℚ) :=
  if (m.find? (fun p => p.1 == k)).isSome then
    m.map (fun p => if p.1 == k then (p.1, p.2 + a) else p)
  else
    m ++ [(k, a)]

/-- The contributions aggregation of `get_groups` / `get_group_details`:
fold the joined (Contribution, User) rows into a dict keyed by
`user.full_name`, summing `contrib.amount`. -/
def contributions_map (rows : List (Contribution × User)) :
    List (String × ℚ) :=
  rows.foldl (fun m r => addToMap m r.2.full_name r.1.amount) []

/-- The join `db.query(Contribution, User).join(User).filter(
Contribution.group_id == group_id)`: each contribution of the group
paired with its user row. -/
def contribution_rows (db : DB) (gid : Nat) : List (Contribution × User) :=
  (db.contributions.filter (fun c => c.group_id == gid)).filterMap
    (fun c => (findUserById db c.user_id).map (fun u => (c, u)))

/-- Member entry of the detail/list views: user id, display name and
the computed role (`admin` iff the user is the group's creator). -/
structure MemberView where
  id : Nat
  name : String
  role : String
deriving DecidableEq, Repr

/-- The member list of `get_groups` / `get_group_details`: the group's
GroupMember rows joined with User, with the derived role. -/
def member_views (db : DB) (g : Group) : List MemberView :=
  ((db.members.filter (fun m => m.group_id == g.id)).filterMap
    (fun m => findUserById db m.user_id)).map
    (fun u => ⟨u.id, u.full_name,
      if u.id == g.created_by then "admin" else "member"⟩)

/-- Response shape shared by `get_groups` (per group) and
`get_group_details`: members plus the name-keyed contribution sums.
(The transaction list of `get_groups` is omitted: no claim concerns it.) -/
structure GroupView where
  id : Nat
  name : String
  created_by : Nat
  members : List MemberView
  contributions : List (String × ℚ)
deriving DecidableEq, Repr

/-- Shapes one group for the detail/list views. -/
def group_view (db : DB) (g : Group) : GroupView :=
  ⟨g.id, g.name, g.created_by, member_views db g,
    contributions_map (contribution_rows db g.id)⟩

/-- `get_group_details` (src/main.py:424-487): 404 group absent; 403
requester not a member; otherwise the member list and the name-keyed
contribution-sum mapping. -/
def get_group_details (db : DB) (gid : Nat) (callerId : Nat) :
    Except ApiError GroupView :=
  match findGroup db gid with
  | none => .error .NotFound
  | some g =>
    if ¬ verify_group_membership gid callerId db then
      .error .Forbidden
    else
      .ok (group_view db g)

/-- `get_groups` (src/main.py:346-421): every group the requester is a
member of, each shaped like the detail view. -/
def get_groups (db : DB) (callerId : Nat) : List GroupView :=
  (db.groups.filter (fun g => verify_group_membership g.id callerId db)).map
    (group_view db)

/-- The scaling written with `mkRat` inside `round2` is exactly `q * 100`. -/
theorem mkRat_num_mul_100 (q : ℚ) : mkRat (q.num * 100) q.den = q * 100 := by
  rw [Rat.mkRat_eq_div,
    show ((q.num * 100 : ℤ) : ℚ) = (q.num : ℚ) * 100 by push_cast; ring,
    mul_div_right_comm, Rat.num_div_den]

/-- `round2` is round-half-to-even of `q * 100`, divided by 100. -/
theorem round2_eq (q : ℚ) :
    round2 q = mkRat (roundHalfEven (q * 100)) 100 := by
  unfold round2
  rw [mkRat_num_mul_100]

/-- A one-group database: Alice (user 1) created group 1 and is its sole
member; Bob (user 2) is registered but not a member; user 3 does not
exist. -/
def exampleDB : DB :=
  ⟨[⟨1, "uidA", "Alice", "pA"⟩, ⟨2, "uidB", "Bob", "pB"⟩],
   [⟨1, "Savers", "", 1⟩], [⟨1, 1⟩], [], [], []⟩

/-- The empty database. -/
def emptyDB : DB := ⟨[], [], [], [], [], []⟩

/-- C1. Successful CreateGroup inserts exactly one GroupMember row
binding the creator to the new group, and `verify_group_membership`
(the code's isMember) holds immediately after; when the name is taken
the call fails Conflict, and — the error branch returning no database —
no Group or GroupMember row is created. -/
theorem create_group_creator_membership (db : DB) (name desc : String)
    (caller nid : Nat) (hfresh : ∀ m ∈ db.members, m.group_id ≠ nid) :
    ((db.groups.find? (fun g => g.name == name)).isSome →
      create_group db name desc caller nid = .error .Conflict) ∧
    (¬ (db.groups.find? (fun g => g.name == name)).isSome →
      ∃ db2, create_group db name desc caller nid
          = .ok (db2, ⟨nid, name, desc, caller⟩) ∧
        db2.groups = db.groups ++ [⟨nid, name, desc, caller⟩] ∧
        db2.members.countP (fun m => m.group_id == nid && m.user_id == caller) = 1 ∧
        verify_group_membership nid caller db2 = true) := by
  constructor
  · intro h
    unfold create_group
    simp [h]
  · intro h
    unfold create_group
    simp only [h, Bool.false_eq_true, if_false, reduceIte]
    refine ⟨_, rfl, rfl, ?_, ?_⟩
    · rw [List.countP_append]
      have h0 : db.members.countP
          (fun m => m.group_id == nid && m.user_id == caller) = 0 := by
        rw [List.countP_eq_zero]
        intro m hm
        simp only [Bool.and_eq_true, beq_iff_eq, not_and]
        intro hgid
        exact absurd hgid (hfresh m hm)
      simp [h0]
    · unfold verify_group_membership
      rw [List.find?_isSome]
      exact ⟨⟨nid, caller⟩, by simp⟩

/-- Witness for C1: creating "Savers" in the empty database with caller 7
and fresh group id 5 yields the creator's membership row. -/
theorem create_group_creator_membership_witness :
    ∃ db2, create_group emptyDB "Savers" "" 7 5 = .ok (db2, ⟨5, "Savers", "", 7⟩) ∧
      db2.groups = emptyDB.groups ++ [⟨5, "Savers", "", 7⟩] ∧
      db2.members.countP (fun m => m.group_id == 5 && m.user_id == 7) = 1 ∧
      verify_group_membership 5 7 db2 = true :=
  (create_group_creator_membership emptyDB "Savers" "" 7 5
    (by intro m hm; simp [emptyDB] at hm)).2 (by decide)

/-- C6. RegisterUser: a taken external identity fails Conflict via the
pre-check; a taken phone (no pre-check) surfaces from the storage
layer's uniqueness constraint as Conflict, never as an unhandled
failure; the error branches return no database, so no User row is
created on Conflict; and a successful registration preserves pairwise
uniqueness of external identities and phones. -/
theorem register_user_uniqueness (db : DB) (uid name phone : String)
    (nid : Nat) :
    ((db.users.find? (fun u => u.firebase_uid == uid)).isSome →
      register_user db uid name phone nid = .error .Conflict) ∧
    (¬ (db.users.find? (fun u => u.firebase_uid == uid)).isSome →
      (db.users.find? (fun u => u.phone == phone)).isSome →
      register_user db uid name phone nid = .error .Conflict) ∧
    (∀ db2 u, register_user db uid name phone nid = .ok (db2, u) →
      db2.users = db.users ++ [u] ∧
      (db.users.Pairwise
          (fun a b => a.firebase_uid ≠ b.firebase_uid ∧ a.phone ≠ b.phone) →
        db2.users.Pairwise
          (fun a b => a.firebase_uid ≠ b.firebase_uid ∧ a.phone ≠ b.phone))) := by
  refine ⟨fun h => by unfold register_user; simp [h],
    fun h1 h2 => by unfold register_user; simp [h1, h2], ?_⟩
  intro db2 u hok
  unfold register_user at hok
  by_cases h1 : (db.users.find? (fun v => v.firebase_uid == uid)).isSome
  · rw [if_pos h1] at hok
    exact absurd hok (by simp)
  rw [if_neg h1] at hok
  by_cases h2 : (db.users.find? (fun v => v.phone == phone)).isSome
  · rw [if_pos h2] at hok
    exact absurd hok (by simp)
  rw [if_neg h2] at hok
  simp only [Except.ok.injEq, Prod.mk.injEq] at hok
  obtain ⟨hdb, hu⟩ := hok
  subst hu
  constructor
  · rw [← hdb]
  intro hpair
  rw [← hdb]
  rw [List.pairwise_append]
  refine ⟨hpair, by simp, ?_⟩
  intro a ha b hb
  rw [List.mem_singleton] at hb
  subst hb
  have hnone1 : db.users.find? (fun v => v.firebase_uid == uid) = none :=
    Option.not_isSome_iff_eq_none.mp h1
  have hnone2 : db.users.find? (fun v => v.phone == phone) = none :=
    Option.not_isSome_iff_eq_none.mp h2
  constructor
  · intro hcontra
    have := List.find?_eq_none.mp hnone1 a ha
    simp only [beq_iff_eq] at this
    exact this hcontra
  · intro hcontra
    have := List.find?_eq_none.mp hnone2 a ha
    simp only [beq_iff_eq] at this
    exact this hcontra

/-- Witness for C6: registering a fresh identity in `exampleDB`
preserves uniqueness of identities and phones. -/
theorem register_user_uniqueness_witness :
    register_user exampleDB "uidA" "X" "pX" 9 = .error .Conflict ∧
    register_user exampleDB "uidC" "X" "pA" 9 = .error .Conflict ∧
    ∃ db2 u, register_user exampleDB "uidC" "Carol" "pC" 9 = .ok (db2, u) ∧
      db2.users.Pairwise
        (fun a b => a.firebase_uid ≠ b.firebase_uid ∧ a.phone ≠ b.phone) := by
  refine ⟨(register_user_uniqueness exampleDB "uidA" "X" "pX" 9).1 (by decide),
    ((register_user_uniqueness exampleDB "uidC" "X" "pA" 9).2.1 (by decide) (by decide)),
    ?_⟩
  have h := (register_user_uniqueness exampleDB "uidC" "Carol" "pC" 9).2.2
    ({ exampleDB with users := exampleDB.users ++ [⟨9, "uidC", "Carol", "pC"⟩] })
    ⟨9, "uidC", "Carol", "pC"⟩ (by rfl)
  exact ⟨_, _, by rfl, h.2 (by decide)⟩

/-- C2 counterexample. In `exampleDB`, group 1 exists, user 3 is not a
member, and requester 2 is neither the creator nor the target, yet
`remove_member` answers Forbidden — not the NotFound the claim requires
for this state. -/
theorem remove_member_order_cex :
    remove_member exampleDB 1 3 2 = .error .Forbidden ∧
      ApiError.Forbidden ≠ ApiError.NotFound := ⟨rfl, by decide⟩

/-- C2 (amended). RemoveGroupMember checks its preconditions in the
order: NotFound if the group is absent; then Forbidden unless the
requester is the creator or the requester equals the target; then
InvalidOperation if the target is the creator; then NotFound if the
target is not currently a member — first failing check wins, so a
non-member target yields NotFound only for a permitted requester. -/
theorem remove_member_check_order (db : DB) (gid target caller : Nat) :
    (findGroup db gid = none →
      remove_member db gid target caller = .error .NotFound) ∧
    (∀ g, findGroup db gid = some g → g.created_by ≠ caller → caller ≠ target →
      remove_member db gid target caller = .error .Forbidden) ∧
    (∀ g, findGroup db gid = some g → (g.created_by = caller ∨ caller = target) →
      target = g.created_by →
      remove_member db gid target caller = .error .InvalidOperation) ∧
    (∀ g, findGroup db gid = some g → (g.created_by = caller ∨ caller = target) →
      target ≠ g.created_by →
      db.members.find? (fun m => m.group_id == gid && m.user_id == target) = none →
      remove_member db gid target caller = .error .NotFound) ∧
    (∀ g m, findGroup db gid = some g →
      (g.created_by = caller ∨ caller = target) → target ≠ g.created_by →
      db.members.find? (fun m => m.group_id == gid && m.user_id == target) = some m →
      remove_member db gid target caller = .ok { db with
        members := db.members.eraseP
          (fun m2 => m2.group_id == gid && m2.user_id == target) }) := by
  have hperm : ∀ g : Group, (g.created_by = caller ∨ caller = target) →
      ¬ (g.created_by ≠ caller ∧ caller ≠ target) := by
    intro g hp hand
    rcases hp with h | h
    · exact hand.1 h
    · exact hand.2 h
  refine ⟨?_, ?_, ?_, ?_, ?_⟩
  · intro h
    unfold remove_member
    rw [h]
  · intro g hg hcb hct
    unfold remove_member
    rw [hg]
    simp only [if_pos (And.intro hcb hct)]
  · intro g hg hp ht
    subst ht
    unfold remove_member
    rw [hg]
    simp only [hperm g hp, if_false, reduceIte, beq_self_eq_true, if_true]
  · intro g hg hp ht hfind
    unfold remove_member
    rw [hg]
    simp only [hperm g hp, if_false, reduceIte, hfind]
    rw [if_neg (by simp [ht])]
  · intro g m hg hp ht hfind
    unfold remove_member
    rw [hg]
    simp only [hperm g hp, if_false, reduceIte, hfind]
    rw [if_neg (by simp [ht])]

/-- Witness for C2 (amended): in `exampleDB` extended with Bob's
membership, the creator removing Bob succeeds, and removing absent user
3 yields NotFound. -/
theorem remove_member_check_order_witness :
    remove_member { exampleDB with members := [⟨1, 1⟩, ⟨1, 2⟩] } 1 2 1 =
      .ok { exampleDB with members := [⟨1, 1⟩] } ∧
    remove_member { exampleDB with members := [⟨1, 1⟩, ⟨1, 2⟩] } 1 3 1 =
      .error .NotFound := by
  constructor
  · have h := (remove_member_check_order
      { exampleDB with members := [⟨1, 1⟩, ⟨1, 2⟩] } 1 2 1).2.2.2.2
      ⟨1, "Savers", "", 1⟩ ⟨1, 2⟩ (by rfl) (Or.inl rfl) (by decide) (by rfl)
    rw [h]
    rfl
  · exact (remove_member_check_order
      { exampleDB with members := [⟨1, 1⟩, ⟨1, 2⟩] } 1 3 1).2.2.2.1
      ⟨1, "Savers", "", 1⟩ (by rfl) (Or.inl rfl) (by decide) (by rfl)

/-- C3 counterexample. Removing the creator (target 1) as requester 2
fails Forbidden, not the InvalidOperation the claim requires for every
requester. -/
theorem remove_creator_cex :
    remove_member exampleDB 1 1 2 = .error .Forbidden ∧
      ApiError.Forbidden ≠ ApiError.InvalidOperation := ⟨rfl, by decide⟩

/-- C3 (amended). For every existing group, RemoveGroupMember with the
creator as target always fails — InvalidOperation when the requester is
the creator (in particular the creator themself), Forbidden for any
other requester — and in either case nothing is deleted, so the
creator's membership can never be removed by this operation. -/
theorem remove_creator_never_removed (db : DB) (gid caller : Nat) (g : Group)
    (hg : findGroup db gid = some g) :
    remove_member db gid g.created_by caller =
      .error (if g.created_by = caller then .InvalidOperation else .Forbidden) ∧
    ∀ db2, remove_member db gid g.created_by caller ≠ .ok db2 := by
  have hmain : remove_member db gid g.created_by caller =
      .error (if g.created_by = caller then .InvalidOperation else .Forbidden) := by
    unfold remove_member
    rw [hg]
    by_cases hc : g.created_by = caller
    · have hnotperm : ¬ (g.created_by ≠ caller ∧ caller ≠ g.created_by) := by
        intro hand
        exact hand.1 hc
      simp only [hnotperm, if_false, reduceIte, beq_self_eq_true, if_true, if_pos hc]
    · have hperm2 : g.created_by ≠ caller ∧ caller ≠ g.created_by :=
        ⟨hc, fun he => hc he.symm⟩
      simp only [if_pos hperm2, if_neg hc]
  refine ⟨hmain, ?_⟩
  intro db2 hok
  rw [hmain] at hok
  exact absurd hok (by simp)

/-- Witness for C3 (amended): in `exampleDB` the creator (user 1)
cannot remove themself — InvalidOperation — and no success is possible. -/
theorem remove_creator_never_removed_witness :
    remove_member exampleDB 1 1 1 = .error .InvalidOperation ∧
    ∀ db2, remove_member exampleDB 1 1 1 ≠ .ok db2 := by
  have h := remove_creator_never_removed exampleDB 1 1 ⟨1, "Savers", "", 1⟩ (by rfl)
  exact ⟨by rw [h.1]; rfl, h.2⟩

/-- C7 counterexample. In `exampleDB`, group 1 exists, target user 3
does not exist, and requester 2 is not a member: `add_group_member`
answers Forbidden — not the NotFound the claim requires for this state. -/
theorem add_member_order_cex :
    add_group_member exampleDB 1 3 2 = .error .Forbidden ∧
      ApiError.Forbidden ≠ ApiError.NotFound := ⟨rfl, by decide⟩

/-- C7 (amended). AddGroupMember checks its preconditions in the order:
NotFound if the group is absent; then Forbidden if the requester is not
a member; then NotFound if the target user is absent; then Conflict if
the target is already a member — first failing check wins, so an absent
target user yields NotFound only for a member requester. -/
theorem add_member_check_order (db : DB) (gid target caller : Nat) :
    (findGroup db gid = none →
      add_group_member db gid target caller = .error .NotFound) ∧
    (findGroup db gid ≠ none → verify_group_membership gid caller db = false →
      add_group_member db gid target caller = .error .Forbidden) ∧
    (findGroup db gid ≠ none → verify_group_membership gid caller db = true →
      findUserById db target = none →
      add_group_member db gid target caller = .error .NotFound) ∧
    (findGroup db gid ≠ none → verify_group_membership gid caller db = true →
      findUserById db target ≠ none →
      (db.members.find? (fun m => m.group_id == gid && m.user_id == target)).isSome →
      add_group_member db gid target caller = .error .Conflict) ∧
    (findGroup db gid ≠ none → verify_group_membership gid caller db = true →
      findUserById db target ≠ none →
      ¬ (db.members.find? (fun m => m.group_id == gid && m.user_id == target)).isSome →
      add_group_member db gid target caller =
        .ok ({ db with members := db.members ++ [⟨gid, target⟩] }, ⟨gid, target⟩)) := by
  refine ⟨?_, ?_, ?_, ?_, ?_⟩
  · intro h
    unfold add_group_member
    rw [h]
  · intro hg hv
    obtain ⟨g, hgs⟩ := Option.ne_none_iff_exists.mp hg
    unfold add_group_member
    rw [← hgs]
    simp [hv]
  · intro hg hv hu
    obtain ⟨g, hgs⟩ := Option.ne_none_iff_exists.mp hg
    unfold add_group_member
    rw [← hgs]
    simp [hv, hu]
  · intro hg hv hu hm
    obtain ⟨g, hgs⟩ := Option.ne_none_iff_exists.mp hg
    obtain ⟨u, hus⟩ := Option.ne_none_iff_exists.mp hu
    unfold add_group_member
    rw [← hgs, ← hus]
    simp [hv, hm]
  · intro hg hv hu hm
    obtain ⟨g, hgs⟩ := Option.ne_none_iff_exists.mp hg
    obtain ⟨u, hus⟩ := Option.ne_none_iff_exists.mp hu
    unfold add_group_member
    rw [← hgs, ← hus]
    simp [hv, hm]

/-- Witness for C7 (amended): the creator of group 1 adds Bob (user 2)
successfully; adding the absent user 3 yields NotFound; re-adding an
existing member yields Conflict. -/
theorem add_member_check_order_witness :
    add_group_member exampleDB 1 2 1 =
      .ok ({ exampleDB with members := exampleDB.members ++ [⟨1, 2⟩] }, ⟨1, 2⟩) ∧
    add_group_member exampleDB 1 3 1 = .error .NotFound ∧
    add_group_member exampleDB 1 1 1 = .error .Conflict := by
  refine ⟨?_, ?_, ?_⟩
  · exact (add_member_check_order exampleDB 1 2 1).2.2.2.2
      (by decide) (by rfl) (by decide) (by decide)
  · exact (add_member_check_order exampleDB 1 3 1).2.2.1
      (by decide) (by rfl) (by rfl)
  · exact (add_member_check_order exampleDB 1 1 1).2.2.2.1
      (by decide) (by rfl) (by decide) (by rfl)

/-- C4 counterexample. A contribution of -5 against the absent group 1
of the empty database fails ValidationError (the request body is
rejected at schema binding, before the handler's group lookup runs) —
not the NotFound the claim requires for this state. -/
theorem record_contribution_order_cex :
    record_contribution emptyDB 1 (-5) 1 1 = .error .ValidationError ∧
      ApiError.ValidationError ≠ ApiError.NotFound := ⟨rfl, by decide⟩

/-- C4 (amended). RecordContribution checks ValidationError first — the
pydantic `ContributionCreate` binding rejects `amount ≤ 0` before the
handler body runs — then NotFound if the group is absent, then
Forbidden if the requester is not a member; so a non-positive amount
against an absent group fails ValidationError, not NotFound.  On
success the Contribution row is always attributed to the authenticated
caller. -/
theorem record_contribution_check_order (db : DB) (gid caller nid : Nat)
    (v : ℚ) :
    (v ≤ 0 → record_contribution db gid v caller nid = .error .ValidationError) ∧
    (0 < v → findGroup db gid = none →
      record_contribution db gid v caller nid = .error .NotFound) ∧
    (0 < v → findGroup db gid ≠ none →
      verify_group_membership gid caller db = false →
      record_contribution db gid v caller nid = .error .Forbidden) ∧
    (∀ db2 c, record_contribution db gid v caller nid = .ok (db2, c) →
      c.user_id = caller ∧ c.amount = round2 v ∧
      db2.contributions = db.contributions ++ [c]) := by
  refine ⟨?_, ?_, ?_, ?_⟩
  · intro hv
    unfold record_contribution contributionCreate
    rw [if_pos hv]
  · intro hv hg
    unfold record_contribution contributionCreate
    rw [if_neg (not_le.mpr hv)]
    simp only [hg]
  · intro hv hg hm
    obtain ⟨g, hgs⟩ := Option.ne_none_iff_exists.mp hg
    unfold record_contribution contributionCreate
    rw [if_neg (not_le.mpr hv), ← hgs]
    simp [hm]
  · intro db2 c hok
    unfold record_contribution contributionCreate at hok
    by_cases hv : v ≤ 0
    · rw [if_pos hv] at hok
      exact absurd hok (by simp)
    rw [if_neg hv] at hok
    cases hgs : findGroup db gid with
    | none => rw [hgs] at hok; exact absurd hok (by simp)
    | some g =>
      rw [hgs] at hok
      by_cases hm : verify_group_membership gid caller db
      · simp only [hm, not_true_eq_false, if_false, reduceIte,
          Except.ok.injEq, Prod.mk.injEq] at hok
        obtain ⟨hdb, hc⟩ := hok
        subst hc
        exact ⟨rfl, rfl, by rw [← hdb]⟩
      · simp only [Bool.not_eq_true] at hm
        simp [hm] at hok

/-- Witness for C4 (amended): amount 5 recorded by the member Alice in
`exampleDB` is attributed to her; 0 < 5 with group 1 present and Bob not
a member gives Forbidden on Bob's call. -/
theorem record_contribution_check_order_witness :
    (∀ db2 c, record_contribution exampleDB 1 5 1 7 = .ok (db2, c) →
      c.user_id = 1 ∧ c.amount = round2 5 ∧
      db2.contributions = exampleDB.contributions ++ [c]) ∧
    record_contribution exampleDB 1 5 2 7 = .error .Forbidden := by
  refine ⟨(record_contribution_check_order exampleDB 1 1 7 5).2.2.2, ?_⟩
  exact (record_contribution_check_order exampleDB 1 2 7 5).2.2.1
    (by decide) (by decide) (by rfl)

/-- C5. Every stored Contribution's amount is `round2` of the submitted
amount — one fixed rounding rule (round half to even at two decimals,
the model of Python's `round(v, 2)`) applied uniformly to all inputs —
amount 0 and amount -5 both fail ValidationError, and the input 50.005
(= `mkRat 50005 1000`) is stored as 50.00, one of the two values the
claim allows. -/
theorem contribution_amount_rounding (db : DB) (gid caller nid : Nat)
    (v : ℚ) :
    (∀ db2 c, record_contribution db gid v caller nid = .ok (db2, c) →
      c.amount = round2 v) ∧
    record_contribution db gid 0 caller nid = .error .ValidationError ∧
    record_contribution db gid (-5) caller nid = .error .ValidationError ∧
    round2 (mkRat 50005 1000) = 50 := by
  refine ⟨?_, ?_, ?_, by decide⟩
  · intro db2 c hok
    exact ((record_contribution_check_order db gid caller nid v).2.2.2
      db2 c hok).2.1
  · exact (record_contribution_check_order db gid caller nid 0).1 le_rfl
  · exact (record_contribution_check_order db gid caller nid (-5)).1 (by norm_num)

/-- Witness for C5: Alice records 50.005 in `exampleDB`; the stored
amount is 50. -/
theorem contribution_amount_rounding_witness :
    ∃ db2 c, record_contribution exampleDB 1 (mkRat 50005 1000) 1 7 = .ok (db2, c) ∧
      c.amount = round2 (mkRat 50005 1000) ∧ c.amount = 50 := by
  refine ⟨_, _, rfl, ?_, by decide⟩
  exact (contribution_amount_rounding exampleDB 1 1 7 (mkRat 50005 1000)).1 _ _ rfl

/-- The one-vote-per-(poll, user) invariant of the `unique_poll_vote`
constraint (src/main.py:96-98). -/
def atMostOneVote (db : DB) : Prop :=
  ∀ pid uid, db.votes.countP
    (fun v => v.poll_id == pid && v.user_id == uid) ≤ 1

/-- A database holding a single poll (id 1) and no votes. -/
def pollDB : DB := ⟨[], [], [], [], [⟨1, 1, "Meet Tuesday?", 1⟩], []⟩

/-- C8. VotePoll fails NotFound when the poll is absent; a successful
vote appends exactly one PollVote row, preserves the at-most-one-vote-
per-(poll, user) invariant, and a second call for the same pair fails
Conflict without returning a database; the group-membership table is
irrelevant to the outcome (no membership check). -/
theorem vote_poll_one_per_pair (db : DB) (pid caller : Nat) (choice : Bool) :
    (db.polls.find? (fun p => p.id == pid) = none →
      vote_poll db pid choice caller = .error .NotFound) ∧
    (∀ db2 w, vote_poll db pid choice caller = .ok (db2, w) →
      w = ⟨pid, caller, choice⟩ ∧
      db2.votes = db.votes ++ [w] ∧
      (atMostOneVote db → atMostOneVote db2) ∧
      ∀ c2, vote_poll db2 pid c2 caller = .error .Conflict) ∧
    (∀ ms, vote_poll { db with members := ms } pid choice caller =
      (vote_poll db pid choice caller).map
        (fun r => ({ r.1 with members := ms }, r.2))) := by
  refine ⟨?_, ?_, ?_⟩
  · intro h
    unfold vote_poll
    rw [h]
  · intro db2 w hok
    unfold vote_poll at hok
    cases hpoll : db.polls.find? (fun p => p.id == pid) with
    | none => rw [hpoll] at hok; exact absurd hok (by simp)
    | some p =>
      rw [hpoll] at hok
      by_cases hv : (db.votes.find?
          (fun v => v.poll_id == pid && v.user_id == caller)).isSome
      · rw [if_pos hv] at hok
        exact absurd hok (by simp)
      rw [if_neg hv] at hok
      simp only [Except.ok.injEq, Prod.mk.injEq] at hok
      obtain ⟨hdb, hw⟩ := hok
      subst hw
      have hvotes : db2.votes = db.votes ++ [⟨pid, caller, choice⟩] := by
        rw [← hdb]
      have hnone : db.votes.find?
          (fun v => v.poll_id == pid && v.user_id == caller) = none :=
        Option.not_isSome_iff_eq_none.mp hv
      refine ⟨rfl, hvotes, ?_, ?_⟩
      · intro hone p2 u2
        rw [hvotes, List.countP_append]
        by_cases hp2 : p2 = pid
        · by_cases hu2 : u2 = caller
          · subst hp2
            subst hu2
            have h0 : db.votes.countP
                (fun v => v.poll_id == p2 && v.user_id == u2) = 0 := by
              rw [List.countP_eq_zero]
              exact List.find?_eq_none.mp hnone
            simp [h0]
          · have h1 : List.countP
                (fun v => v.poll_id == p2 && v.user_id == u2)
                [(⟨pid, caller, choice⟩ : PollVote)] = 0 := by
              simp only [List.countP_singleton, Bool.and_eq_true, beq_iff_eq]
              rw [if_neg]
              intro hand
              exact hu2 hand.2.symm
            rw [h1]
            simpa using hone p2 u2
        · have h1 : List.countP
              (fun v => v.poll_id == p2 && v.user_id == u2)
              [(⟨pid, caller, choice⟩ : PollVote)] = 0 := by
            simp only [List.countP_singleton, Bool.and_eq_true, beq_iff_eq]
            rw [if_neg]
            intro hand
            exact hp2 hand.1.symm
          rw [h1]
          simpa using hone p2 u2
      · intro c2
        have hpolls2 : db2.polls = db.polls := by rw [← hdb]
        have hsome2 : (db2.votes.find?
            (fun v => v.poll_id == pid && v.user_id == caller)).isSome := by
          rw [List.find?_isSome]
          exact ⟨⟨pid, caller, choice⟩, by rw [hvotes]; simp, by simp⟩
        unfold vote_poll
        rw [hpolls2, hpoll, if_pos hsome2]
  · intro ms
    unfold vote_poll
    cases hpoll : db.polls.find? (fun p => p.id == pid) with
    | none => simp [Except.map]
    | some p =>
      by_cases hv : (db.votes.find?
          (fun v => v.poll_id == pid && v.user_id == caller)).isSome
      · simp [hv, Except.map]
      · simp [hv, Except.map]

/-- Witness for C8: Bob (user 2, not a member of anything) votes on
poll 1 of `pollDB`; the invariant holds afterwards and a second vote by
Bob fails Conflict. -/
theorem vote_poll_one_per_pair_witness :
    ∃ db2 w, vote_poll pollDB 1 true 2 = .ok (db2, w) ∧
      atMostOneVote db2 ∧ vote_poll db2 1 true 2 = .error .Conflict := by
  have h := (vote_poll_one_per_pair pollDB 1 2 true).2.1 _ _ rfl
  exact ⟨_, _, rfl,
    h.2.2.1 (by intro p u; simp [pollDB, atMostOneVote]),
    h.2.2.2 true⟩

/-- C9. GetPollResults fails NotFound when the poll is absent; for an
existing poll it returns the total/yes/no counts with percentages
computed from them behind an explicit total-is-zero guard, and on a
poll with zero votes it returns total 0 and 0% for both — a success,
never an error. -/
theorem get_poll_results_guarded (db : DB) (pid : Nat) :
    (db.polls.find? (fun p => p.id == pid) = none →
      get_poll_results db pid = .error .NotFound) ∧
    (db.polls.find? (fun p => p.id == pid) ≠ none →
      get_poll_results db pid = .ok
        { total := (db.votes.filter (fun v => v.poll_id == pid)).length,
          yes := ((db.votes.filter (fun v => v.poll_id == pid)).filter
            (fun v => v.vote)).length,
          no := (db.votes.filter (fun v => v.poll_id == pid)).length -
            ((db.votes.filter (fun v => v.poll_id == pid)).filter
              (fun v => v.vote)).length,
          yes_percentage :=
            if (db.votes.filter (fun v => v.poll_id == pid)).length = 0 then 0
            else (((db.votes.filter (fun v => v.poll_id == pid)).filter
                (fun v => v.vote)).length : ℚ) * 100 /
              ((db.votes.filter (fun v => v.poll_id == pid)).length : ℚ),
          no_percentage :=
            if (db.votes.filter (fun v => v.poll_id == pid)).length = 0 then 0
            else (((db.votes.filter (fun v => v.poll_id == pid)).length -
                ((db.votes.filter (fun v => v.poll_id == pid)).filter
                  (fun v => v.vote)).length : Nat) : ℚ) * 100 /
              ((db.votes.filter (fun v => v.poll_id == pid)).length : ℚ) }) ∧
    (db.polls.find? (fun p => p.id == pid) ≠ none →
      db.votes.filter (fun v => v.poll_id == pid) = [] →
      get_poll_results db pid = .ok ⟨0, 0, 0, 0, 0⟩) := by
  refine ⟨?_, ?_, ?_⟩
  · intro h
    unfold get_poll_results
    rw [h]
  · intro h
    obtain ⟨p, hps⟩ := Option.ne_none_iff_exists.mp h
    unfold get_poll_results
    rw [← hps]
  · intro h hempty
    obtain ⟨p, hps⟩ := Option.ne_none_iff_exists.mp h
    unfold get_poll_results
    rw [← hps]
    simp [hempty]

/-- Witness for C9: the zero-vote poll 1 of `pollDB` yields total 0,
yes% 0, no% 0. -/
theorem get_poll_results_guarded_witness :
    get_poll_results pollDB 1 = .ok ⟨0, 0, 0, 0, 0⟩ :=
  (get_poll_results_guarded pollDB 1).2.2 (by decide) rfl

/-- Dict lookup in the aggregation map: value of the first entry whose
key is `n`. -/
def lookupName (m : List (String × ℚ)) (n : String) : Option ℚ :=
  (m.find? (fun p => p.1 == n)).map Prod.snd

/-- Total contributed under display name `n`: the sum of the amounts of
all joined rows whose user has that name. -/
def nameAmount (rows : List (Contribution × User)) (n : String) : ℚ :=
  ((rows.filter (fun r => r.2.full_name == n)).map (fun r => r.1.amount)).sum

/-- The display names of the joined rows, in order. -/
def rowNames (rows : List (Contribution × User)) : List String :=
  rows.map (fun r => r.2.full_name)

theorem lookupName_cons (q : String × ℚ) (m : List (String × ℚ))
    (n : String) :
    lookupName (q :: m) n = if q.1 = n then some q.2 else lookupName m n := by
  unfold lookupName
  by_cases h : q.1 = n
  · rw [List.find?_cons_of_pos _ (by simp [h]), if_pos h]
    rfl
  · rw [List.find?_cons_of_neg _ (by simp [h]), if_neg h]

theorem lookupName_update (m : List (String × ℚ)) (k : String) (a : ℚ)
    (n : String) :
    lookupName (m.map (fun p => if p.1 == k then (p.1, p.2 + a) else p)) n =
      if n = k then (lookupName m n).map (· + a) else lookupName m n := by
  induction m with
  | nil =>
    by_cases hnk : n = k
    · rw [if_pos hnk]
      rfl
    · rw [if_neg hnk]
      rfl
  | cons p ps ih =>
    obtain ⟨pk, pv⟩ := p
    rw [List.map_cons]
    simp only [lookupName_cons]
    have hfst : ((if ((pk, pv) : String × ℚ).1 == k
        then ((pk, pv).1, (pk, pv).2 + a) else (pk, pv)) : String × ℚ).1 = pk := by
      split <;> rfl
    rw [hfst]
    by_cases hpn : pk = n
    · rw [if_pos hpn, if_pos hpn]
      by_cases hpk : pk = k
      · rw [if_pos (hpn.symm.trans hpk), if_pos (by simp [hpk])]
        rfl
      · rw [if_neg (fun h => hpk (hpn.trans h)), if_neg (by simp [hpk])]
    · rw [if_neg hpn, if_neg hpn]
      by_cases hnk : n = k
      · rw [if_pos hnk] at ih ⊢
        exact ih
      · rw [if_neg hnk] at ih ⊢
        exact ih

theorem lookupName_addToMap (m : List (String × ℚ)) (k : String) (a : ℚ)
    (n : String) :
    lookupName (addToMap m k a) n =
      if n = k then some ((lookupName m k).getD 0 + a) else lookupName m n := by
  unfold addToMap
  by_cases hsome : (m.find? (fun p => p.1 == k)).isSome
  · rw [if_pos hsome, lookupName_update]
    by_cases hnk : n = k
    · subst hnk
      rw [if_pos rfl, if_pos rfl]
      obtain ⟨p, hp⟩ := Option.isSome_iff_exists.mp hsome
      unfold lookupName
      rw [hp]
      rfl
    · rw [if_neg hnk, if_neg hnk]
  · rw [if_neg hsome]
    have hnone : m.find? (fun p => p.1 == k) = none :=
      Option.not_isSome_iff_eq_none.mp hsome
    by_cases hnk : n = k
    · subst hnk
      rw [if_pos rfl]
      unfold lookupName
      rw [List.find?_append, hnone, Option.none_or,
        List.find?_cons_of_pos _ (by simp)]
      simp
    · rw [if_neg hnk]
      unfold lookupName
      rw [List.find?_append]
      cases hfm : m.find? (fun p => p.1 == n) with
      | some q => rfl
      | none =>
        rw [Option.none_or,
          List.find?_cons_of_neg _ (by simp [Ne.symm hnk]), List.find?_nil]

theorem nameAmount_not_mem (rows : List (Contribution × User)) (n : String)
    (h : n ∉ rowNames rows) : nameAmount rows n = 0 := by
  unfold nameAmount
  have : rows.filter (fun r => r.2.full_name == n) = [] := by
    rw [List.filter_eq_nil_iff]
    intro r hr
    simp only [beq_iff_eq]
    intro hcontra
    exact h (by unfold rowNames; rw [← hcontra]; exact List.mem_map_of_mem _ hr)
  rw [this]
  rfl

theorem lookupName_foldl (rows : List (Contribution × User)) :
    ∀ (m : List (String × ℚ)) (n : String),
      lookupName (rows.foldl (fun acc r => addToMap acc r.2.full_name r.1.amount) m) n =
        if n ∈ rowNames rows then
          some ((lookupName m n).getD 0 + nameAmount rows n)
        else lookupName m n := by
  induction rows with
  | nil =>
    intro m n
    rw [if_neg (by unfold rowNames; simp)]
    rfl
  | cons r rs ih =>
    intro m n
    rw [List.foldl_cons, ih]
    by_cases hn : n = r.2.full_name
    · rw [if_pos (show n ∈ rowNames (r :: rs) from by
        unfold rowNames
        rw [List.map_cons]
        exact List.mem_cons.mpr (Or.inl hn))]
      have hmem : nameAmount (r :: rs) n = r.1.amount + nameAmount rs n := by
        unfold nameAmount
        rw [List.filter_cons_of_pos (by simp [hn]), List.map_cons, List.sum_cons]
      rw [hmem, lookupName_addToMap, if_pos hn, ← hn]
      by_cases hmemrs : n ∈ rowNames rs
      · rw [if_pos hmemrs]
        simp only [Option.getD_some]
        rw [add_assoc]
      · rw [if_neg hmemrs, nameAmount_not_mem rs n hmemrs, add_zero]
    · have hskip : nameAmount (r :: rs) n = nameAmount rs n := by
        unfold nameAmount
        rw [List.filter_cons_of_neg (by
          simp only [beq_iff_eq]
          exact fun h => hn h.symm)]
      have hnames : (n ∈ rowNames (r :: rs)) ↔ (n ∈ rowNames rs) := by
        unfold rowNames
        rw [List.map_cons, List.mem_cons]
        constructor
        · rintro (h | h)
          · exact absurd h hn
          · exact h
        · exact Or.inr
      rw [hskip, lookupName_addToMap, if_neg hn]
      by_cases hmemrs : n ∈ rowNames rs
      · rw [if_pos (hnames.mpr hmemrs), if_pos hmemrs]
      · rw [if_neg (fun h : n ∈ rowNames (r :: rs) => hmemrs (hnames.mp h)),
          if_neg hmemrs]

/-- The aggregation map sends each present display name to the total of
all contributions recorded under that name, and absent names to
nothing. -/
theorem lookupName_contributions_map (rows : List (Contribution × User))
    (n : String) :
    lookupName (contributions_map rows) n =
      if n ∈ rowNames rows then some (nameAmount rows n) else none := by
  unfold contributions_map
  rw [lookupName_foldl]
  by_cases h : n ∈ rowNames rows
  · rw [if_pos h, if_pos h]
    unfold lookupName
    rw [List.find?_nil]
    simp
  · rw [if_neg h, if_neg h]
    rfl

theorem keys_pairwise_addToMap (m : List (String × ℚ)) (k : String) (a : ℚ)
    (h : m.Pairwise (fun p q => p.1 ≠ q.1)) :
    (addToMap m k a).Pairwise (fun p q => p.1 ≠ q.1) := by
  have hkey : ∀ p : String × ℚ,
      ((if p.1 == k then (p.1, p.2 + a) else p) : String × ℚ).1 = p.1 := by
    intro p
    split <;> rfl
  unfold addToMap
  by_cases hsome : (m.find? (fun p => p.1 == k)).isSome
  · rw [if_pos hsome, List.pairwise_map]
    exact h.imp (fun hpq => by rw [hkey, hkey]; exact hpq)
  · rw [if_neg hsome, List.pairwise_append]
    refine ⟨h, List.pairwise_singleton _ _, ?_⟩
    intro p hp q hq
    rw [List.mem_singleton] at hq
    subst hq
    have := List.find?_eq_none.mp (Option.not_isSome_iff_eq_none.mp hsome) p hp
    simpa using this

theorem keys_pairwise_contributions_map (rows : List (Contribution × User)) :
    (contributions_map rows).Pairwise (fun p q => p.1 ≠ q.1) := by
  unfold contributions_map
  have h : ∀ m : List (String × ℚ), m.Pairwise (fun p q => p.1 ≠ q.1) →
      (rows.foldl (fun acc r => addToMap acc r.2.full_name r.1.amount) m).Pairwise
        (fun p q => p.1 ≠ q.1) := by
    induction rows with
    | nil => exact fun m hm => hm
    | cons r rs ih =>
      intro m hm
      rw [List.foldl_cons]
      exact ih _ (keys_pairwise_addToMap _ _ _ hm)
  exact h [] List.Pairwise.nil

theorem countP_key_of_pairwise (m : List (String × ℚ)) (n : String)
    (h : m.Pairwise (fun p q => p.1 ≠ q.1)) :
    m.countP (fun p => p.1 == n) =
      if (m.find? (fun p => p.1 == n)).isSome then 1 else 0 := by
  induction m with
  | nil => rfl
  | cons p ps ih =>
    rw [List.pairwise_cons] at h
    obtain ⟨hhead, htail⟩ := h
    by_cases hp : p.1 = n
    · rw [List.countP_cons_of_pos _ _ (by simp [hp]),
        List.find?_cons_of_pos _ (by simp [hp])]
      have h0 : ps.countP (fun q => q.1 == n) = 0 := by
        rw [List.countP_eq_zero]
        intro q hq
        simp only [beq_iff_eq]
        exact fun hc => hhead q hq (hp.trans hc.symm)
      rw [h0]
      simp
    · rw [List.countP_cons_of_neg _ _ (by simp [hp]),
        List.find?_cons_of_neg _ (by simp [hp])]
      exact ih htail

theorem keys_toFinset_addToMap (m : List (String × ℚ)) (k : String) (a : ℚ) :
    ((addToMap m k a).map Prod.fst).toFinset =
      insert k (m.map Prod.fst).toFinset := by
  unfold addToMap
  by_cases hsome : (m.find? (fun p => p.1 == k)).isSome
  · rw [if_pos hsome]
    have hmap : (m.map (fun p => if p.1 == k then (p.1, p.2 + a) else p)).map
        Prod.fst = m.map Prod.fst := by
      rw [List.map_map]
      apply List.map_congr_left
      intro p _
      show ((if p.1 == k then (p.1, p.2 + a) else p) : String × ℚ).1 = p.1
      split <;> rfl
    rw [hmap]
    obtain ⟨p, hp⟩ := Option.isSome_iff_exists.mp hsome
    have hpk : p.1 = k := by
      have := List.find?_some hp
      simpa using this
    have hkmem : k ∈ (m.map Prod.fst).toFinset := by
      rw [List.mem_toFinset]
      exact hpk ▸ List.mem_map_of_mem Prod.fst (List.mem_of_find?_eq_some hp)
    rw [Finset.insert_eq_self.mpr hkmem]
  · rw [if_neg hsome, List.map_append, List.toFinset_append]
    rw [show (([(k, a)] : List (String × ℚ)).map Prod.fst).toFinset = {k} from rfl,
      Finset.union_comm, ← Finset.insert_eq]

theorem keys_toFinset_contributions_map (rows : List (Contribution × User)) :
    ((contributions_map rows).map Prod.fst).toFinset =
      (rowNames rows).toFinset := by
  unfold contributions_map
  have h : ∀ m : List (String × ℚ),
      ((rows.foldl (fun acc r => addToMap acc r.2.full_name r.1.amount) m).map
        Prod.fst).toFinset =
      (m.map Prod.fst).toFinset ∪ (rowNames rows).toFinset := by
    induction rows with
    | nil =>
      intro m
      rw [show rowNames [] = [] from rfl]
      simp
    | cons r rs ih =>
      intro m
      rw [List.foldl_cons, ih, keys_toFinset_addToMap,
        show rowNames (r :: rs) = r.2.full_name :: rowNames rs from rfl,
        List.toFinset_cons, Finset.insert_union, Finset.union_insert]
  rw [h []]
  simp

theorem length_contributions_map (rows : List (Contribution × User)) :
    (contributions_map rows).length = (rowNames rows).toFinset.card := by
  have hnodup : ((contributions_map rows).map Prod.fst).Nodup :=
    List.pairwise_map.mpr (keys_pairwise_contributions_map rows)
  calc (contributions_map rows).length
      = ((contributions_map rows).map Prod.fst).length :=
        (List.length_map _ _).symm
    _ = ((contributions_map rows).map Prod.fst).toFinset.card :=
        (List.toFinset_card_of_nodup hnodup).symm
    _ = (rowNames rows).toFinset.card := by
        rw [keys_toFinset_contributions_map]

theorem list_toFinset_map {α β : Type} [DecidableEq α] [DecidableEq β]
    (f : α → β) (l : List α) :
    (l.map f).toFinset = l.toFinset.image f := by
  rw [List.toFinset, List.toFinset, ← Multiset.toFinset_map]
  rfl

theorem rowNames_toFinset (rows : List (Contribution × User)) :
    (rowNames rows).toFinset =
      ((rows.map (fun r => r.2)).toFinset).image User.full_name := by
  unfold rowNames
  rw [show rows.map (fun r => r.2.full_name)
      = (rows.map (fun r => r.2)).map User.full_name from
    (List.map_map _ _ _).symm, list_toFinset_map]

theorem card_image_full_name_lt (S : Finset User) (u1 u2 : User)
    (h1 : u1 ∈ S) (h2 : u2 ∈ S) (hne : u1 ≠ u2)
    (hname : u1.full_name = u2.full_name) :
    (S.image User.full_name).card < S.card := by
  have himg : S.image User.full_name = (S.erase u1).image User.full_name := by
    apply Finset.ext
    intro x
    simp only [Finset.mem_image, Finset.mem_erase]
    constructor
    · rintro ⟨u, hu, hx⟩
      by_cases he : u = u1
      · exact ⟨u2, ⟨Ne.symm hne, h2⟩, by rw [← hname, ← he, hx]⟩
      · exact ⟨u, ⟨he, hu⟩, hx⟩
    · rintro ⟨u, ⟨hu1, hu⟩, hx⟩
      exact ⟨u, hu, hx⟩
  rw [himg]
  calc ((S.erase u1).image User.full_name).card
      ≤ (S.erase u1).card := Finset.card_image_le
    _ < S.card := by
        rw [Finset.card_erase_of_mem h1]
        exact Nat.sub_lt (Finset.card_pos.mpr ⟨u1, h1⟩) one_pos

/-- Two distinct users who share the display name "Alice", both
members of group 1 and both contributing to it. -/
def sameNameDB : DB :=
  ⟨[⟨1, "u1", "Alice", "p1"⟩, ⟨2, "u2", "Alice", "p2"⟩],
   [⟨1, "Grp", "", 1⟩], [⟨1, 1⟩, ⟨1, 2⟩],
   [⟨1, 1, 1, 10⟩, ⟨2, 1, 2, 20⟩], [], []⟩

/-- C10. The per-member contribution-sum mapping of ListMyGroups and
GetGroupDetail is keyed by display name: whenever two distinct users
with the same name both contributed to a group, the map holds exactly
one entry under that name whose value is the total over all
contributions recorded under the name, and the map has strictly fewer
entries than there are distinct contributing users; both endpoints
return exactly this mapping. -/
theorem contributions_map_name_collision (db : DB) (gid : Nat)
    (c1 c2 : Contribution) (u1 u2 : User)
    (h1 : (c1, u1) ∈ contribution_rows db gid)
    (h2 : (c2, u2) ∈ contribution_rows db gid)
    (hne : u1.id ≠ u2.id) (hname : u1.full_name = u2.full_name) :
    lookupName (contributions_map (contribution_rows db gid)) u1.full_name =
      some (nameAmount (contribution_rows db gid) u1.full_name) ∧
    (contributions_map (contribution_rows db gid)).countP
      (fun p => p.1 == u1.full_name) = 1 ∧
    (contributions_map (contribution_rows db gid)).length <
      ((contribution_rows db gid).map (fun r => r.2)).toFinset.card ∧
    (∀ gv, get_group_details db gid u1.id = .ok gv →
      gv.contributions = contributions_map (contribution_rows db gid)) ∧
    (∀ uid gv, gv ∈ get_groups db uid →
      gv.contributions = contributions_map (contribution_rows db gv.id)) := by
  have hmemname : u1.full_name ∈ rowNames (contribution_rows db gid) := by
    unfold rowNames
    exact List.mem_map_of_mem (fun r => r.2.full_name) h1
  have hlookup : lookupName (contributions_map (contribution_rows db gid))
      u1.full_name = some (nameAmount (contribution_rows db gid) u1.full_name) := by
    rw [lookupName_contributions_map, if_pos hmemname]
  refine ⟨hlookup, ?_, ?_, ?_, ?_⟩
  · rw [countP_key_of_pairwise _ _ (keys_pairwise_contributions_map _)]
    have hfind : ((contributions_map (contribution_rows db gid)).find?
        (fun p => p.1 == u1.full_name)).isSome := by
      cases hf : (contributions_map (contribution_rows db gid)).find?
          (fun p => p.1 == u1.full_name) with
      | some q => rfl
      | none =>
        unfold lookupName at hlookup
        rw [hf] at hlookup
        exact absurd hlookup (by simp)
    rw [if_pos hfind]
  · rw [length_contributions_map, rowNames_toFinset]
    refine card_image_full_name_lt _ u1 u2 ?_ ?_
      (fun he => hne (congrArg User.id he)) hname
    · rw [List.mem_toFinset]
      exact List.mem_map_of_mem (fun r => r.2) h1
    · rw [List.mem_toFinset]
      exact List.mem_map_of_mem (fun r => r.2) h2
  · intro gv hok
    unfold get_group_details at hok
    cases hfg : findGroup db gid with
    | none => rw [hfg] at hok; exact absurd hok (by simp)
    | some g =>
      rw [hfg] at hok
      by_cases hm : verify_group_membership gid u1.id db
      · simp only [hm, not_true_eq_false, reduceIte, Except.ok.injEq] at hok
        have hfg2 : db.groups.find? (fun g2 => g2.id == gid) = some g := hfg
        have hgid : g.id = gid := by
          have := List.find?_some hfg2
          simpa using this
        rw [← hok]
        unfold group_view
        rw [hgid]
      · simp only [Bool.not_eq_true] at hm
        simp [hm] at hok
  · intro uid gv hmem
    unfold get_groups at hmem
    obtain ⟨g, _, hgv⟩ := List.mem_map.mp hmem
    rw [← hgv]
    unfold group_view
    rfl

/-- Witness for C10: in `sameNameDB` the users with ids 1 and 2 both
display as "Alice"; the aggregation map has a single "Alice" entry and
fewer entries than contributing users. -/
theorem contributions_map_name_collision_witness :
    lookupName (contributions_map (contribution_rows sameNameDB 1)) "Alice" =
      some (nameAmount (contribution_rows sameNameDB 1) "Alice") ∧
    (contributions_map (contribution_rows sameNameDB 1)).countP
      (fun p => p.1 == "Alice") = 1 ∧
    (contributions_map (contribution_rows sameNameDB 1)).length <
      ((contribution_rows sameNameDB 1).map (fun r => r.2)).toFinset.card := by
  have h := contributions_map_name_collision sameNameDB 1
    ⟨1, 1, 1, 10⟩ ⟨2, 1, 2, 20⟩
    ⟨1, "u1", "Alice", "p1"⟩ ⟨2, "u2", "Alice", "p2"⟩
    (by decide) (by decide) (by decide) rfl
  exact ⟨h.1, h.2.1, h.2.2.1⟩

end Kikundi
